import Mathlib

/-!
Verification of the task-graph repository's tool layer.

The development shallowly embeds the TypeScript sources:
* `src/src/tools/context.ts` (context handler, open handler, and the newer
  tree handler with progress annotations),
* `src/src/tools/tree.ts` (the older tree handler),
* the validation helpers (`validate.ts`),
* the backup/restore manager, whose implementation (`db.ts`) is not part of
  the sources at hand; it is modelled from the specification and its tests.

Runtime JavaScript values arriving at the request boundary are modelled by
`JValue`; thrown `ValidationError` / `EngineError` values are modelled by the
`Err` type, and throwing functions return `Except Err`.
-/

/-- A runtime JavaScript value as seen by the validation helpers. -/
inductive JValue where
  | undef : JValue
  | null : JValue
  | bool (b : Bool) : JValue
  | num (n : Int) : JValue
  | str (s : String) : JValue
  | arr (l : List JValue) : JValue
  | obj (l : List (String × JValue)) : JValue

/-- Errors thrown by the tool layer: `ValidationError` (code
`validation_error`) and `EngineError` (carrying a stable code string). -/
inductive Err where
  | validation (message : String) : Err
  | engine (code : String) (message : String) : Err
deriving DecidableEq, Repr

/-- The JavaScript string trim: drop leading and trailing whitespace. Written
over the character list so that it evaluates by reduction. -/
def jsTrim (s : String) : String :=
  ⟨(((s.data.dropWhile Char.isWhitespace).reverse.dropWhile Char.isWhitespace).reverse)⟩

/-- From validate.ts: require a non-empty string, returning its trim. -/
def requireString (value : JValue) (field : String) : Except Err String :=
  match value with
  | .str s =>
    if (jsTrim s).length == 0 then
      .error (.validation (field ++ " is required and must be a non-empty string"))
    else
      .ok (jsTrim s)
  | _ => .error (.validation (field ++ " is required and must be a non-empty string"))

/-- From validate.ts: optional string (undefined/null pass through as none). -/
def optionalString (value : JValue) (field : String) : Except Err (Option String) :=
  match value with
  | .undef => .ok none
  | .null => .ok none
  | .str s => .ok (some s)
  | _ => .error (.validation (field ++ " must be a string"))

/-- From validate.ts: require a non-empty array. -/
def requireArray (value : JValue) (field : String) : Except Err (List JValue) :=
  match value with
  | .arr l =>
    if l.isEmpty then
      .error (.validation (field ++ " is required and must be a non-empty array"))
    else
      .ok l
  | _ => .error (.validation (field ++ " is required and must be a non-empty array"))

/-- From validate.ts: optional array. -/
def optionalArray (value : JValue) (field : String) : Except Err (Option (List JValue)) :=
  match value with
  | .undef => .ok none
  | .null => .ok none
  | .arr l => .ok (some l)
  | _ => .error (.validation (field ++ " must be an array"))

/-- From validate.ts: optional number with optional bounds (numbers are
modelled as integers). -/
def optionalNumber (value : JValue) (field : String) (min max : Option Int) :
    Except Err (Option Int) :=
  match value with
  | .undef => .ok none
  | .null => .ok none
  | .num n =>
    match min with
    | some mn =>
      if n < mn then .error (.validation (field ++ " must be >= " ++ toString mn))
      else
        match max with
        | some mx =>
          if n > mx then .error (.validation (field ++ " must be <= " ++ toString mx))
          else .ok (some n)
        | none => .ok (some n)
    | none =>
      match max with
      | some mx =>
        if n > mx then .error (.validation (field ++ " must be <= " ++ toString mx))
        else .ok (some n)
      | none => .ok (some n)
  | _ => .error (.validation (field ++ " must be a number"))

/-- From validate.ts: optional boolean. -/
def optionalBoolean (value : JValue) (field : String) : Except Err (Option Bool) :=
  match value with
  | .undef => .ok none
  | .null => .ok none
  | .bool b => .ok (some b)
  | _ => .error (.validation (field ++ " must be a boolean"))

/-- From validate.ts: require a plain (non-array, non-null) object. -/
def requireObject (value : JValue) (field : String) :
    Except Err (List (String × JValue)) :=
  match value with
  | .obj l => .ok l
  | _ => .error (.validation (field ++ " is required and must be an object"))

/-- A message of the form field-name-followed-by-suffix contains the field name. -/
theorem field_mem_of_append (f suf m : String) (h : f ++ suf = m) :
    ∃ a b, m = a ++ f ++ b := by
  subst h
  exact ⟨"", suf, rfl⟩

/-- C6: every rejection produced by any of the seven validation helpers is a
ValidationError whose message contains the offending field's name. The
helpers are pure functions of the raw input value alone (they take no store),
so they fail before any engine read or write. -/
theorem validation_errors_name_field :
    (∀ (v : JValue) (f m : String),
      requireString v f = .error (.validation m) → ∃ a b, m = a ++ f ++ b) ∧
    (∀ (v : JValue) (f m : String),
      optionalString v f = .error (.validation m) → ∃ a b, m = a ++ f ++ b) ∧
    (∀ (v : JValue) (f m : String),
      requireArray v f = .error (.validation m) → ∃ a b, m = a ++ f ++ b) ∧
    (∀ (v : JValue) (f m : String),
      optionalArray v f = .error (.validation m) → ∃ a b, m = a ++ f ++ b) ∧
    (∀ (v : JValue) (f m : String) (mn mx : Option Int),
      optionalNumber v f mn mx = .error (.validation m) → ∃ a b, m = a ++ f ++ b) ∧
    (∀ (v : JValue) (f m : String),
      optionalBoolean v f = .error (.validation m) → ∃ a b, m = a ++ f ++ b) ∧
    (∀ (v : JValue) (f m : String),
      requireObject v f = .error (.validation m) → ∃ a b, m = a ++ f ++ b) := by
  refine ⟨?_, ?_, ?_, ?_, ?_, ?_, ?_⟩
  · intro v f m h
    cases v <;> simp only [requireString] at h <;> (try split at h) <;>
      first
        | exact Except.noConfusion h
        | (injection h with h1; injection h1 with h2; exact field_mem_of_append f _ m h2)
  · intro v f m h
    cases v <;> simp only [optionalString] at h <;>
      first
        | exact Except.noConfusion h
        | (injection h with h1; injection h1 with h2; exact field_mem_of_append f _ m h2)
  · intro v f m h
    cases v <;> simp only [requireArray] at h <;> (try split at h) <;>
      first
        | exact Except.noConfusion h
        | (injection h with h1; injection h1 with h2; exact field_mem_of_append f _ m h2)
  · intro v f m h
    cases v <;> simp only [optionalArray] at h <;>
      first
        | exact Except.noConfusion h
        | (injection h with h1; injection h1 with h2; exact field_mem_of_append f _ m h2)
  · intro v f m mn mx h
    cases v <;> cases mn <;> cases mx <;> simp only [optionalNumber] at h <;>
        (try split at h) <;> (try split at h) <;>
      first
        | exact Except.noConfusion h
        | (injection h with h1; injection h1 with h2; exact field_mem_of_append f _ m h2)
        | (injection h with h1; injection h1 with h2;
           exact field_mem_of_append f _ m (by rw [← String.append_assoc]; exact h2))
  · intro v f m h
    cases v <;> simp only [optionalBoolean] at h <;>
      first
        | exact Except.noConfusion h
        | (injection h with h1; injection h1 with h2; exact field_mem_of_append f _ m h2)
  · intro v f m h
    cases v <;> simp only [requireObject] at h <;>
      first
        | exact Except.noConfusion h
        | (injection h with h1; injection h1 with h2; exact field_mem_of_append f _ m h2)

/-- C6 witness: a concrete rejected input (a null node_id) yields a
ValidationError whose message contains the field name. -/
theorem validation_errors_name_field_witness :
    (requireString .null "node_id" =
      .error (.validation "node_id is required and must be a non-empty string")) ∧
    (∃ a b, "node_id is required and must be a non-empty string" = a ++ "node_id" ++ b) :=
  ⟨rfl, validation_errors_name_field.1 .null "node_id" _ rfl⟩

/-- A soft claim lease on a node (agent plus expiry time). -/
structure NodeClaim where
  agent : String
  expires_at : Nat
deriving DecidableEq, Repr

/-- A task-graph node. Freeform values (state, property values) are kept as
strings, timestamps as naturals. -/
structure Node where
  id : String
  project : String
  parent : Option String
  summary : String
  resolved : Bool
  state : Option String
  properties : List (String × String)
  blocked : Bool
  claim : Option NodeClaim
  discovery : Option String
  created_by : String
  created_at : Nat
  updated_at : Nat
deriving DecidableEq, Repr

/-- A typed directed edge between two nodes. -/
structure Edge where
  from_node : String
  to_node : String
  type : String
  created_at : Nat
deriving DecidableEq, Repr

/-- The persisted graph: a nodes relation and an edges relation, both in
insertion order. -/
structure Store where
  nodes : List Node
  edges : List Edge
deriving DecidableEq, Repr

/-- Modelled from the spec: the node/edge store's get-node primitive
(nodes.ts is not among the sources); looks a node up by id. -/
def getNode (s : Store) (id : String) : Option Node :=
  s.nodes.find? (fun n => n.id == id)

/-- Modelled from the spec: get node, failing with a NotFound engine error if
absent (nodes.ts is not among the sources). -/
def getNodeOrThrow (s : Store) (id : String) : Except Err Node :=
  match getNode s id with
  | some n => .ok n
  | none => .error (.engine "not_found" ("Node not found: " ++ id))

/-- Modelled from the spec: list children of a node in insertion order
(nodes.ts is not among the sources). -/
def getChildren (s : Store) (id : String) : List Node :=
  s.nodes.filter (fun n => n.parent == some id)

/-- The chain of ancestor ids of a node, immediate parent first, bounded by
the given fuel. -/
def parentChain (s : Store) : Nat → String → List String
  | 0, _ => []
  | fuel + 1, id =>
    match getNode s id with
    | none => []
    | some n =>
      match n.parent with
      | none => []
      | some p => p :: parentChain s fuel p

/-- The shape of an ancestor entry returned by the context handler. -/
structure AncestorInfo where
  id : String
  summary : String
  resolved : Bool
deriving DecidableEq, Repr

/-- Modelled from the spec: list ancestors of a node in root-to-immediate-
parent order (nodes.ts is not among the sources). -/
def getAncestors (s : Store) (id : String) : List AncestorInfo :=
  (((parentChain s s.nodes.length id).filterMap (getNode s)).reverse).map
    (fun n => ⟨n.id, n.summary, n.resolved⟩)

/-- Modelled from the spec: the root of a project is its unique node with no
parent (nodes.ts is not among the sources). -/
def getProjectRoot (s : Store) (project : String) : Option Node :=
  s.nodes.find? (fun n => n.project == project && n.parent == none)

/-- One entry of the all-projects listing. -/
structure ProjectInfo where
  project : String
  id : String
  summary : String
  total : Nat
  resolved : Nat
  unresolved : Nat
  updated_at : Nat
deriving DecidableEq, Repr

/-- Modelled from the spec: list all projects with aggregate counts
(nodes.ts is not among the sources). -/
def listProjects (s : Store) : List ProjectInfo :=
  (s.nodes.filter (fun n => n.parent == none)).map (fun r =>
    let ns := s.nodes.filter (fun n => n.project == r.project)
    let res := (ns.filter (fun n => n.resolved)).length
    ⟨r.project, r.id, r.summary, ns.length, res, ns.length - res, r.updated_at⟩)

/-- Modelled from the spec: list the depends_on (or other typed) edges
leaving a node (edges.ts is not among the sources). -/
def getEdgesFrom (s : Store) (id : String) (type : String) : List Edge :=
  s.edges.filter (fun e => e.from_node == id && e.type == type)

/-- Modelled from the spec: list the typed edges entering a node
(edges.ts is not among the sources). -/
def getEdgesTo (s : Store) (id : String) (type : String) : List Edge :=
  s.edges.filter (fun e => e.to_node == id && e.type == type)

/-- Modelled from the spec: a node is actionable iff it is unresolved, a
leaf, all its depends_on targets are resolved, it is not blocked, and its
claim is absent or expired. -/
def isActionable (s : Store) (now : Nat) (n : Node) : Bool :=
  !n.resolved && (getChildren s n.id).isEmpty &&
    ((getEdgesFrom s n.id "depends_on").all (fun e =>
      match getNode s e.to_node with
      | some t => t.resolved
      | none => false)) &&
    !n.blocked &&
    (match n.claim with
     | none => true
     | some c => c.expires_at ≤ now)

/-- The project summary returned by the open handler. -/
structure ProjectSummary where
  total : Nat
  resolved : Nat
  unresolved : Nat
  blocked : Nat
  actionable : Nat
deriving DecidableEq, Repr

/-- Modelled from the spec: aggregate counts over one project's nodes
(nodes.ts is not among the sources). -/
def getProjectSummary (s : Store) (project : String) (now : Nat) : ProjectSummary :=
  let ns := s.nodes.filter (fun n => n.project == project)
  let res := (ns.filter (fun n => n.resolved)).length
  ⟨ns.length, res, ns.length - res,
    (ns.filter (fun n => n.blocked)).length,
    (ns.filter (isActionable s now)).length⟩

/-- Whether a node lies in the subtree of root: it is root itself or root
occurs on its ancestor chain. -/
def inSubtree (s : Store) (root : String) (id : String) : Bool :=
  id == root || (parentChain s s.nodes.length id).contains root

/-- A resolved/total progress pair. -/
structure Progress where
  resolved : Nat
  total : Nat
deriving DecidableEq, Repr

/-- Modelled from the spec: the aggregate subtree-progress query returns the
exact resolved and total counts over a node's descendant set, the node
included, without materializing the subtree (nodes.ts is not among the
sources). -/
def getSubtreeProgress (s : Store) (root : String) : Progress :=
  let sub := s.nodes.filter (fun n => inSubtree s root n.id)
  ⟨(sub.filter (fun n => n.resolved)).length, sub.length⟩

/-- Modelled from the spec and the open handler's call site: create a fresh
project-root node (nodes.ts is not among the sources). The node is appended
to the nodes relation. -/
def createNode (s : Store) (project summary discovery agent : String) (now : Nat) :
    Node × Store :=
  let n : Node :=
    { id := "node-" ++ toString s.nodes.length
      project := project
      parent := none
      summary := summary
      resolved := false
      state := none
      properties := []
      blocked := false
      claim := none
      discovery := some discovery
      created_by := agent
      created_at := now
      updated_at := now }
  (n, { s with nodes := s.nodes ++ [n] })

/-- From context.ts: the node tree returned by the context handler. A node
either carries a materialized children list, or a child_count, or neither. -/
inductive NodeTree where
  | mk (id : String) (summary : String) (resolved : Bool) (state : Option String)
      (children : Option (List NodeTree)) (child_count : Option Nat) : NodeTree

/-- The id of a context node tree. -/
def NodeTree.id : NodeTree → String
  | .mk i _ _ _ _ _ => i

/-- The summary of a context node tree. -/
def NodeTree.summary : NodeTree → String
  | .mk _ su _ _ _ _ => su

/-- The resolved flag of a context node tree. -/
def NodeTree.resolved : NodeTree → Bool
  | .mk _ _ r _ _ _ => r

/-- The state of a context node tree. -/
def NodeTree.state : NodeTree → Option String
  | .mk _ _ _ st _ _ => st

/-- The materialized children of a context node tree, when present. -/
def NodeTree.children : NodeTree → Option (List NodeTree)
  | .mk _ _ _ _ c _ => c

/-- The child count of a truncated context node tree, when present. -/
def NodeTree.child_count : NodeTree → Option Nat
  | .mk _ _ _ _ _ cc => cc

mutual

/-- From context.ts, buildNodeTree: build the children tree of a node down to
maxDepth, truncating deeper levels to a child_count. -/
def buildNodeTree (s : Store) (nodeId : String) (currentDepth maxDepth : Nat) :
    Except Err NodeTree :=
  match getNodeOrThrow s nodeId with
  | .error e => .error e
  | .ok node =>
    let children := getChildren s nodeId
    if children.isEmpty then
      .ok (.mk node.id node.summary node.resolved node.state none none)
    else if h : currentDepth < maxDepth then
      match buildNodeTreeList s children (currentDepth + 1) maxDepth with
      | .error e => .error e
      | .ok cs => .ok (.mk node.id node.summary node.resolved node.state (some cs) none)
    else
      .ok (.mk node.id node.summary node.resolved node.state none (some children.length))
termination_by (maxDepth - currentDepth, 0)
decreasing_by
  simp_wf
  exact Prod.Lex.left _ _ (by omega)

/-- The children.map loop of buildNodeTree: builds the subtree of each child
in order, propagating the first error. -/
def buildNodeTreeList (s : Store) (l : List Node) (currentDepth maxDepth : Nat) :
    Except Err (List NodeTree) :=
  match l with
  | [] => .ok []
  | c :: rest =>
    match buildNodeTree s c.id currentDepth maxDepth with
    | .error e => .error e
    | .ok t =>
      match buildNodeTreeList s rest currentDepth maxDepth with
      | .error e => .error e
      | .ok ts => .ok (t :: ts)
termination_by (maxDepth - currentDepth, l.length + 1)
decreasing_by
  · simp_wf
    exact Prod.Lex.right _ (by omega)
  · simp_wf
    exact Prod.Lex.right _ (by omega)

end

/-- A dependency-satisfaction entry of the context result. -/
structure DepEntry where
  node : Option Node
  satisfied : Bool
deriving DecidableEq, Repr

/-- The raw request object of the context handler. -/
structure ContextInput where
  node_id : JValue
  depth : JValue

/-- From context.ts: the context handler's result. -/
structure ContextResult where
  node : Node
  ancestors : List AncestorInfo
  children : NodeTree
  depends_on : List DepEntry
  depended_by : List DepEntry

/-- From context.ts, handleContext: validate, fetch the node, its ancestors,
its depth-truncated children tree, and dependency satisfaction both ways. -/
def handleContext (s : Store) (input : ContextInput) : Except Err ContextResult :=
  match requireString input.node_id "node_id" with
  | .error e => .error e
  | .ok nodeId =>
    match optionalNumber input.depth "depth" (some 0) (some 10) with
    | .error e => .error e
    | .ok odepth =>
      let depth := (odepth.getD 2).toNat
      match getNodeOrThrow s nodeId with
      | .error e => .error e
      | .ok node =>
        let ancestors := getAncestors s nodeId
        match buildNodeTree s nodeId 0 depth with
        | .error e => .error e
        | .ok children =>
          let depsOut := getEdgesFrom s nodeId "depends_on"
          let depsIn := getEdgesTo s nodeId "depends_on"
          let depends_on := depsOut.map (fun e =>
            let target := getNode s e.to_node
            ⟨target,
              match target with
              | some t => t.resolved
              | none => false⟩)
          let depended_by := depsIn.map (fun e =>
            (⟨getNode s e.from_node, node.resolved⟩ : DepEntry))
          .ok ⟨node, ancestors, children, depends_on, depended_by⟩

/-- The raw request object of the open handler. -/
structure OpenInput where
  project : JValue
  goal : JValue

/-- From context.ts: the open handler's result, either the all-projects
listing or one project's root and summary. -/
inductive OpenResult where
  | projects (l : List ProjectInfo) : OpenResult
  | opened (project : String) (root : Node) (summary : ProjectSummary) : OpenResult
deriving DecidableEq, Repr

/-- From context.ts, handleOpen: without a project (or with a falsy empty
project string) list all projects; otherwise ensure the project has a root
node, creating one whose summary is the goal (or the project name) if
needed, and return the root with the project summary. -/
def handleOpen (s : Store) (input : OpenInput) (agent : String) (now : Nat) :
    Except Err (OpenResult × Store) :=
  match optionalString input.project "project" with
  | .error e => .error e
  | .ok project =>
    match optionalString input.goal "goal" with
    | .error e => .error e
    | .ok goal =>
      match project with
      | none => .ok (.projects (listProjects s), s)
      | some p =>
        if p == "" then
          .ok (.projects (listProjects s), s)
        else
          match getProjectRoot s p with
          | some root => .ok (.opened p root (getProjectSummary s p now), s)
          | none =>
            let (root, s1) := createNode s p (goal.getD p) "pending" agent now
            .ok (.opened p root (getProjectSummary s1 p now), s1)

/-- The raw request object of both tree handlers (their TreeInput interfaces
are identical). -/
structure TreeInput where
  project : JValue
  depth : JValue

/-- The stats block of both tree handlers' results. -/
structure Stats where
  total : Nat
  resolved : Nat
  unresolved : Nat
deriving DecidableEq, Repr

namespace Tree1

/-- From tree.ts: the tree node shape of the older tree handler. -/
inductive TreeNode where
  | mk (id : String) (summary : String) (resolved : Bool)
      (properties : List (String × String))
      (children : Option (List TreeNode)) (child_count : Option Nat) : TreeNode

/-- The id of an older-handler tree node. -/
def TreeNode.id : TreeNode → String
  | .mk i _ _ _ _ _ => i

/-- The summary of an older-handler tree node. -/
def TreeNode.summary : TreeNode → String
  | .mk _ su _ _ _ _ => su

/-- The resolved flag of an older-handler tree node. -/
def TreeNode.resolved : TreeNode → Bool
  | .mk _ _ r _ _ _ => r

/-- The properties of an older-handler tree node. -/
def TreeNode.properties : TreeNode → List (String × String)
  | .mk _ _ _ pr _ _ => pr

/-- The children of an older-handler tree node, when materialized. -/
def TreeNode.children : TreeNode → Option (List TreeNode)
  | .mk _ _ _ _ c _ => c

/-- The child count of a truncated older-handler tree node. -/
def TreeNode.child_count : TreeNode → Option Nat
  | .mk _ _ _ _ _ cc => cc

/-- Result of one buildTree call: the tree node plus the threaded stats
accumulator (total, resolved), modelling the mutated stats object. -/
structure BuildRes where
  treeNode : TreeNode
  stats : Nat × Nat

/-- Result of the children loop of buildTree. -/
structure BuildListRes where
  trees : List TreeNode
  stats : Nat × Nat

mutual

/-- From tree.ts, buildTree: render a node, counting it into stats, recursing
into children below the depth limit and truncating to child_count at it. -/
def buildTree (s : Store) (n : Node) (currentDepth maxDepth : Nat)
    (stats : Nat × Nat) : BuildRes :=
  let stats1 := (stats.1 + 1, if n.resolved then stats.2 + 1 else stats.2)
  let children := getChildren s n.id
  if children.isEmpty then
    ⟨.mk n.id n.summary n.resolved n.properties none none, stats1⟩
  else if h : currentDepth < maxDepth then
    let r := buildTreeList s children (currentDepth + 1) maxDepth stats1
    ⟨.mk n.id n.summary n.resolved n.properties (some r.trees) none, r.stats⟩
  else
    ⟨.mk n.id n.summary n.resolved n.properties none (some children.length), stats1⟩
termination_by (maxDepth - currentDepth, 0)
decreasing_by
  simp_wf
  exact Prod.Lex.left _ _ (by omega)

/-- The children.map loop of tree.ts buildTree, threading stats left to
right. -/
def buildTreeList (s : Store) (l : List Node) (currentDepth maxDepth : Nat)
    (stats : Nat × Nat) : BuildListRes :=
  match l with
  | [] => ⟨[], stats⟩
  | c :: rest =>
    let r := buildTree s c currentDepth maxDepth stats
    let rs := buildTreeList s rest currentDepth maxDepth r.stats
    ⟨r.treeNode :: rs.trees, rs.stats⟩
termination_by (maxDepth - currentDepth, l.length + 1)
decreasing_by
  · simp_wf
    exact Prod.Lex.right _ (by omega)
  · simp_wf
    exact Prod.Lex.right _ (by omega)

end

/-- From tree.ts: the older tree handler's result. -/
structure TreeResult where
  project : String
  tree : TreeNode
  stats : Stats

/-- From tree.ts, handleTree: validate, find the project root, and render the
depth-truncated tree with visit stats. -/
def handleTree (s : Store) (input : TreeInput) : Except Err TreeResult :=
  match requireString input.project "project" with
  | .error e => .error e
  | .ok project =>
    match optionalNumber input.depth "depth" (some 1) (some 20) with
    | .error e => .error e
    | .ok odepth =>
      let depth := (odepth.getD 10).toNat
      match getProjectRoot s project with
      | none => .error (.engine "project_not_found" ("Project not found: " ++ project))
      | some root =>
        let r := buildTree s root 0 depth (0, 0)
        .ok ⟨project, r.treeNode, ⟨r.stats.1, r.stats.2, r.stats.1 - r.stats.2⟩⟩

end Tree1

namespace Tree2

/-- From the tree handler in context.ts: the tree node shape of the newer
tree handler, additionally carrying a progress annotation. -/
inductive TreeNode where
  | mk (id : String) (summary : String) (resolved : Bool)
      (properties : List (String × String)) (progress : Option Progress)
      (children : Option (List TreeNode)) (child_count : Option Nat) : TreeNode

/-- The id of a newer-handler tree node. -/
def TreeNode.id : TreeNode → String
  | .mk i _ _ _ _ _ _ => i

/-- The summary of a newer-handler tree node. -/
def TreeNode.summary : TreeNode → String
  | .mk _ su _ _ _ _ _ => su

/-- The resolved flag of a newer-handler tree node. -/
def TreeNode.resolved : TreeNode → Bool
  | .mk _ _ r _ _ _ _ => r

/-- The properties of a newer-handler tree node. -/
def TreeNode.properties : TreeNode → List (String × String)
  | .mk _ _ _ pr _ _ _ => pr

/-- The progress annotation of a newer-handler tree node, when present. -/
def TreeNode.progress : TreeNode → Option Progress
  | .mk _ _ _ _ pg _ _ => pg

/-- The children of a newer-handler tree node, when materialized. -/
def TreeNode.children : TreeNode → Option (List TreeNode)
  | .mk _ _ _ _ _ c _ => c

/-- The child count of a truncated newer-handler tree node. -/
def TreeNode.child_count : TreeNode → Option Nat
  | .mk _ _ _ _ _ _ cc => cc

/-- Result of one newer buildTree call: the tree node, the subtree totals,
and the threaded stats accumulator (total, resolved). -/
structure BuildRes where
  treeNode : TreeNode
  subtotal : Nat
  subresolved : Nat
  stats : Nat × Nat

/-- Result of the children loop of the newer buildTree. -/
structure BuildListRes where
  trees : List TreeNode
  subtotal : Nat
  subresolved : Nat
  stats : Nat × Nat

mutual

/-- From the tree handler in context.ts, buildTree: like the older builder
but additionally computing subtree progress, falling back to the aggregate
subtree-progress query when the depth limit truncates a node's children. -/
def buildTree (s : Store) (n : Node) (currentDepth maxDepth : Nat)
    (stats : Nat × Nat) : BuildRes :=
  let stats1 := (stats.1 + 1, if n.resolved then stats.2 + 1 else stats.2)
  let children := getChildren s n.id
  let subresolved0 := if n.resolved then 1 else 0
  if children.isEmpty then
    ⟨.mk n.id n.summary n.resolved n.properties none none none, 1, subresolved0, stats1⟩
  else if h : currentDepth < maxDepth then
    let r := buildTreeList s children (currentDepth + 1) maxDepth stats1
    let subtotal := 1 + r.subtotal
    let subresolved := subresolved0 + r.subresolved
    ⟨.mk n.id n.summary n.resolved n.properties (some ⟨subresolved, subtotal⟩)
        (some r.trees) none,
      subtotal, subresolved, r.stats⟩
  else
    let progress := getSubtreeProgress s n.id
    ⟨.mk n.id n.summary n.resolved n.properties
        (some ⟨progress.resolved, progress.total⟩) none (some children.length),
      progress.total, progress.resolved, stats1⟩
termination_by (maxDepth - currentDepth, 0)
decreasing_by
  simp_wf
  exact Prod.Lex.left _ _ (by omega)

/-- The children loop of the newer buildTree, threading stats and summing the
children's subtree totals. -/
def buildTreeList (s : Store) (l : List Node) (currentDepth maxDepth : Nat)
    (stats : Nat × Nat) : BuildListRes :=
  match l with
  | [] => ⟨[], 0, 0, stats⟩
  | c :: rest =>
    let r := buildTree s c currentDepth maxDepth stats
    let rs := buildTreeList s rest currentDepth maxDepth r.stats
    ⟨r.treeNode :: rs.trees, r.subtotal + rs.subtotal, r.subresolved + rs.subresolved,
      rs.stats⟩
termination_by (maxDepth - currentDepth, l.length + 1)
decreasing_by
  · simp_wf
    exact Prod.Lex.right _ (by omega)
  · simp_wf
    exact Prod.Lex.right _ (by omega)

end

/-- From the tree handler in context.ts: the newer tree handler's result. -/
structure TreeResult where
  project : String
  tree : TreeNode
  stats : Stats

/-- From the tree handler in context.ts, handleTree: like the older handler,
with a richer project-not-found message listing available projects. -/
def handleTree (s : Store) (input : TreeInput) : Except Err TreeResult :=
  match requireString input.project "project" with
  | .error e => .error e
  | .ok project =>
    match optionalNumber input.depth "depth" (some 1) (some 20) with
    | .error e => .error e
    | .ok odepth =>
      let depth := (odepth.getD 10).toNat
      match getProjectRoot s project with
      | none =>
        let available := listProjects s
        let names := available.map (fun p => p.project)
        let suffix :=
          if names.length > 0 then
            " Available projects: " ++ String.intercalate ", " names
          else
            " No projects exist yet."
        .error (.engine "project_not_found"
          ("Project not found: " ++ project ++ "." ++ suffix))
      | some root =>
        let r := buildTree s root 0 depth (0, 0)
        .ok ⟨project, r.treeNode, ⟨r.stats.1, r.stats.2, r.stats.1 - r.stats.2⟩⟩

end Tree2

/-- The location of the persisted store: a purely in-memory database or a
file-backed one. -/
inductive DbPath where
  | memory : DbPath
  | file (path : String) : DbPath
deriving DecidableEq, Repr

/-- One backup file: name (built from timestamp and tag), tag, creation time,
and the snapshotted store image. -/
structure Backup where
  filename : String
  tag : String
  created_at : Nat
  content : String
deriving DecidableEq, Repr

/-- Modelled from the spec: the state the backup/restore manager operates on
(db.ts is not among the sources): the store location, the live store image,
and the backups directory in creation order (oldest first). -/
structure DbState where
  path : DbPath
  image : String
  backups : List Backup
deriving DecidableEq, Repr

/-- Modelled from the spec, backupDb (db.ts is not among the sources): a
no-op returning no destination on an in-memory store; otherwise snapshot the
live image under a timestamp-and-tag filename, then prune retention to the
most recent 10 backups by creation order. -/
def backupDb (st : DbState) (tag : String) (now : Nat) : Option String × DbState :=
  match st.path with
  | .memory => (none, st)
  | .file _ =>
    let filename := toString now ++ "-" ++ tag ++ ".db"
    let b : Backup := ⟨filename, tag, now, st.image⟩
    let all := st.backups ++ [b]
    let kept := all.drop (all.length - 10)
    (some filename, { st with backups := kept })

/-- Modelled from the spec, listBackups (db.ts is not among the sources):
the backups, newest first. -/
def listBackups (st : DbState) : List Backup :=
  st.backups.reverse

/-- Parse a decimal numeral, the CLI's reading of a numeric restore target.
Written over the character list so that it evaluates by reduction. -/
def jsParseNat (s : String) : Option Nat :=
  if s.data ≠ [] ∧ s.data.all Char.isDigit then
    some (s.data.foldl (fun acc c => acc * 10 + (c.toNat - 48)) 0)
  else
    none

/-- Modelled from the spec: resolve a restore target as an exact backup
filename, or else as a 1-based recency index (1 = most recent). -/
def resolveBackup (st : DbState) (target : String) : Option Backup :=
  let bs := listBackups st
  match bs.find? (fun b => b.filename == target) with
  | some b => some b
  | none =>
    match jsParseNat target with
    | some i => if 1 ≤ i ∧ i ≤ bs.length then bs[i - 1]? else none
    | none => none

/-- Modelled from the spec, restoreDb (db.ts is not among the sources): fail
with BackupNotFound leaving the live image untouched when the target does not
resolve, otherwise replace the live store image with the backup's contents. -/
def restoreDb (st : DbState) (target : String) : Except Err String × DbState :=
  match resolveBackup st target with
  | none => (.error (.engine "backup_not_found" ("Backup not found: " ++ target)), st)
  | some b => (.ok b.filename, { st with image := b.content })

/-- Modelled from the spec, initDb's backup side effect (db.ts is not among
the sources): on store initialization a daily backup is taken unless one
tagged daily already exists for the current calendar day (days are
now / 86400). In-memory stores are initialized with no backups. -/
def initDb (st : DbState) (now : Nat) : DbState :=
  match st.path with
  | .memory => { st with backups := [] }
  | .file _ =>
    if st.backups.any (fun b => b.tag == "daily" && b.created_at / 86400 == now / 86400) then
      st
    else
      (backupDb st "daily" now).2

/-- A store node found by id satisfies the lookup predicate, so its id is the
looked-up id. -/
theorem getNode_id (s : Store) (nid : String) (node : Node)
    (h : getNode s nid = some node) : node.id = nid := by
  have h' : s.nodes.find? (fun n => n.id == nid) = some node := h
  have := List.find?_some h'
  simpa using this

/-- Every node of the store can be looked up by its id. -/
theorem getNode_of_mem (s : Store) (c : Node) (hc : c ∈ s.nodes) :
    ∃ m, getNode s c.id = some m := by
  have h : (s.nodes.find? (fun n => n.id == c.id)).isSome = true :=
    List.find?_isSome.mpr ⟨c, hc, by simp⟩
  rcases Option.isSome_iff_exists.mp h with ⟨m, hm⟩
  exact ⟨m, hm⟩

/-- Children of a node are nodes of the store. -/
theorem mem_of_mem_getChildren (s : Store) (nid : String) (c : Node)
    (hc : c ∈ getChildren s nid) : c ∈ s.nodes :=
  (List.mem_filter.mp hc).1

/-- buildNodeTree on an absent node id fails with the NotFound engine
error. -/
theorem buildNodeTree_not_found (s : Store) (nid : String) (cur max : Nat)
    (h : getNode s nid = none) :
    buildNodeTree s nid cur max =
      .error (.engine "not_found" ("Node not found: " ++ nid)) := by
  unfold buildNodeTree getNodeOrThrow
  rw [h]

/-- buildNodeTree on a childless node returns it with neither a children
array nor a child_count. -/
theorem buildNodeTree_leaf (s : Store) (nid : String) (cur max : Nat) (node : Node)
    (hn : getNode s nid = some node) (hc : getChildren s nid = []) :
    buildNodeTree s nid cur max =
      .ok (.mk node.id node.summary node.resolved node.state none none) := by
  unfold buildNodeTree getNodeOrThrow
  rw [hn, hc]
  simp

/-- buildNodeTree below the depth limit materializes the children built by
the children loop. -/
theorem buildNodeTree_step (s : Store) (nid : String) (cur max : Nat) (node : Node)
    (cs : List NodeTree) (hn : getNode s nid = some node)
    (hc : getChildren s nid ≠ []) (hlt : cur < max)
    (hl : buildNodeTreeList s (getChildren s nid) (cur + 1) max = .ok cs) :
    buildNodeTree s nid cur max =
      .ok (.mk node.id node.summary node.resolved node.state (some cs) none) := by
  unfold buildNodeTree getNodeOrThrow
  rw [hn]
  simp [hc, hlt, hl]

/-- buildNodeTree at the depth limit truncates a node with children to a
child_count. -/
theorem buildNodeTree_trunc (s : Store) (nid : String) (cur max : Nat) (node : Node)
    (hn : getNode s nid = some node) (hc : getChildren s nid ≠ [])
    (hge : ¬ cur < max) :
    buildNodeTree s nid cur max =
      .ok (.mk node.id node.summary node.resolved node.state none
        (some (getChildren s nid).length)) := by
  unfold buildNodeTree getNodeOrThrow
  rw [hn]
  simp [hc, hge]

/-- The children loop on an empty list returns the empty list. -/
theorem buildNodeTreeList_nil (s : Store) (cur max : Nat) :
    buildNodeTreeList s [] cur max = .ok [] := by
  unfold buildNodeTreeList
  rfl

/-- The children loop conses the head's tree onto the tail's trees. -/
theorem buildNodeTreeList_cons (s : Store) (c : Node) (rest : List Node)
    (cur max : Nat) (t : NodeTree) (ts : List NodeTree)
    (h1 : buildNodeTree s c.id cur max = .ok t)
    (h2 : buildNodeTreeList s rest cur max = .ok ts) :
    buildNodeTreeList s (c :: rest) cur max = .ok (t :: ts) := by
  unfold buildNodeTreeList
  rw [h1, h2]

/-- The subtrees of a context node tree at a given relative depth. -/
def NodeTree.subtreesAt : NodeTree → Nat → List NodeTree
  | t, 0 => [t]
  | t, k + 1 =>
    match t.children with
    | none => []
    | some cs => cs.flatMap (fun c => NodeTree.subtreesAt c k)

/-- A context node tree node mirrors the store node it was rendered from. -/
def MatchesBase (s : Store) (nid : String) (t : NodeTree) : Prop :=
  ∃ node, getNode s nid = some node ∧ t.id = node.id ∧ t.summary = node.summary ∧
    t.resolved = node.resolved ∧ t.state = node.state

/-- A context node tree is the faithful depth-b truncation of the store
subtree under nid: below the budget all children are materialized and match
recursively, at budget zero a node with children is cut to its exact
child_count, and childless nodes carry neither field. -/
def Matches (s : Store) : Nat → String → NodeTree → Prop
  | 0, nid, t =>
    MatchesBase s nid t ∧
    (getChildren s nid = [] → t.children = none ∧ t.child_count = none) ∧
    (getChildren s nid ≠ [] → t.children = none ∧
      t.child_count = some (getChildren s nid).length)
  | b + 1, nid, t =>
    MatchesBase s nid t ∧
    (getChildren s nid = [] → t.children = none ∧ t.child_count = none) ∧
    (getChildren s nid ≠ [] → t.child_count = none ∧
      ∃ cs, t.children = some cs ∧
        List.Forall₂ (fun (c : Node) tc => Matches s b c.id tc) (getChildren s nid) cs)

/-- buildNodeTree succeeds on every existing node and renders the faithful
depth-truncation of its subtree. -/
theorem buildNodeTree_ok (s : Store) :
    ∀ (b cur max : Nat), max - cur = b → ∀ (nid : String) (node : Node),
      getNode s nid = some node →
      ∃ t, buildNodeTree s nid cur max = .ok t ∧ Matches s b nid t := by
  intro b
  induction b with
  | zero =>
    intro cur max hb nid node hn
    by_cases hc : getChildren s nid = []
    · exact ⟨_, buildNodeTree_leaf s nid cur max node hn hc,
        ⟨node, hn, rfl, rfl, rfl, rfl⟩, fun _ => ⟨rfl, rfl⟩, fun hne => absurd hc hne⟩
    · have hge : ¬ cur < max := by omega
      exact ⟨_, buildNodeTree_trunc s nid cur max node hn hc hge,
        ⟨node, hn, rfl, rfl, rfl, rfl⟩, fun he => absurd he hc, fun _ => ⟨rfl, rfl⟩⟩
  | succ b ih =>
    intro cur max hb nid node hn
    by_cases hc : getChildren s nid = []
    · exact ⟨_, buildNodeTree_leaf s nid cur max node hn hc,
        ⟨node, hn, rfl, rfl, rfl, rfl⟩, fun _ => ⟨rfl, rfl⟩, fun hne => absurd hc hne⟩
    · have hlt : cur < max := by omega
      have hsub : ∀ (l : List Node), (∀ c ∈ l, c ∈ s.nodes) →
          ∃ ts, buildNodeTreeList s l (cur + 1) max = .ok ts ∧
            List.Forall₂ (fun (c : Node) tc => Matches s b c.id tc) l ts := by
        intro l
        induction l with
        | nil => exact fun _ => ⟨[], buildNodeTreeList_nil s (cur + 1) max, List.Forall₂.nil⟩
        | cons c rest ihl =>
          intro hmem
          obtain ⟨m, hm⟩ := getNode_of_mem s c (hmem c (List.mem_cons_self c rest))
          obtain ⟨t, ht, hmt⟩ := ih (cur + 1) max (by omega) c.id m hm
          obtain ⟨ts, hts, hfts⟩ := ihl (fun x hx => hmem x (List.mem_cons_of_mem c hx))
          exact ⟨t :: ts, buildNodeTreeList_cons s c rest (cur + 1) max t ts ht hts,
            List.Forall₂.cons hmt hfts⟩
      obtain ⟨ts, hts, hf⟩ :=
        hsub (getChildren s nid) (fun c hcm => mem_of_mem_getChildren s nid c hcm)
      exact ⟨_, buildNodeTree_step s nid cur max node ts hn hc hlt hts,
        ⟨node, hn, rfl, rfl, rfl, rfl⟩, fun he => absurd he hc,
        fun _ => ⟨rfl, ts, rfl, hf⟩⟩

/-- A member of the right list of a Forall₂ relation has a related member on
the left. -/
theorem forall2_mem_right {α β : Type} {R : α → β → Prop} :
    ∀ {l₁ : List α} {l₂ : List β}, List.Forall₂ R l₁ l₂ →
      ∀ {y : β}, y ∈ l₂ → ∃ x, x ∈ l₁ ∧ R x y := by
  intro l₁ l₂ h
  induction h with
  | nil => intro y hy; cases hy
  | @cons a b l₁ l₂ hr _ ih =>
    intro y hy
    rcases List.mem_cons.mp hy with hyb | hyl
    · exact ⟨a, List.mem_cons_self a l₁, hyb ▸ hr⟩
    · obtain ⟨x, hx, hrx⟩ := ih hyl
      exact ⟨x, List.mem_cons_of_mem a hx, hrx⟩

/-- A matching tree node carries the id it was rendered from. -/
theorem matches_id (s : Store) (b : Nat) (nid : String) (t : NodeTree)
    (h : Matches s b nid t) : t.id = nid := by
  cases b with
  | zero =>
    obtain ⟨⟨node, hn, hid, _, _, _⟩, _, _⟩ := h
    rw [hid, getNode_id s nid node hn]
  | succ b =>
    obtain ⟨⟨node, hn, hid, _, _, _⟩, _, _⟩ := h
    rw [hid, getNode_id s nid node hn]

/-- Subtrees at relative depth k of a matching tree lie within the budget and
match with the remaining budget. -/
theorem matches_subtreesAt (s : Store) :
    ∀ (k b : Nat) (nid : String) (t : NodeTree), Matches s b nid t →
      ∀ t', t' ∈ t.subtreesAt k → k ≤ b ∧ Matches s (b - k) t'.id t' := by
  intro k
  induction k with
  | zero =>
    intro b nid t h t' ht'
    have heq : t' = t := by simpa [NodeTree.subtreesAt] using ht'
    subst heq
    refine ⟨Nat.zero_le b, ?_⟩
    rw [Nat.sub_zero, matches_id s b nid t' h]
    exact h
  | succ k ihk =>
    intro b nid t h t' ht'
    cases t with
    | mk i su r st ch cc =>
      cases ch with
      | none => simp [NodeTree.subtreesAt, NodeTree.children] at ht'
      | some cs =>
        have hmem : ∃ c ∈ cs, t' ∈ NodeTree.subtreesAt c k := by
          simpa [NodeTree.subtreesAt, NodeTree.children, List.mem_flatMap] using ht'
        obtain ⟨ct, hct, htc⟩ := hmem
        cases b with
        | zero =>
          obtain ⟨_, hemp, hne⟩ := h
          by_cases hce : getChildren s nid = []
          · have := (hemp hce).1
            simp [NodeTree.children] at this
          · have := (hne hce).1
            simp [NodeTree.children] at this
        | succ b =>
          obtain ⟨_, hemp, hne⟩ := h
          by_cases hce : getChildren s nid = []
          · have := (hemp hce).1
            simp [NodeTree.children] at this
          · obtain ⟨_, cs', hcs', hf⟩ := hne hce
            have hcseq : cs = cs' := by
              have : (NodeTree.mk i su r st (some cs) cc).children = some cs := rfl
              rw [this] at hcs'
              exact (Option.some.injEq _ _).mp hcs'
            subst hcseq
            obtain ⟨c, _, hmc⟩ := forall2_mem_right hf hct
            obtain ⟨hkb, hmt⟩ := ihk b c.id ct hmc t' htc
            refine ⟨by omega, ?_⟩
            rw [Nat.succ_sub_succ]
            exact hmt

/-- C2: for every existing node and accepted depth, the context operation's
children tree is the full subtree down to the effective depth d (default 2):
every materialized level below d mirrors the store's child lists exactly,
every node at depth d that still has children carries only child_count equal
to its exact number of immediate children, nodes with no children carry
neither field, and nothing is rendered beyond depth d. -/
theorem context_children_truncation (s : Store) (input : ContextInput)
    (nid : String) (od : Option Int) (node : Node)
    (h1 : requireString input.node_id "node_id" = .ok nid)
    (h2 : optionalNumber input.depth "depth" (some 0) (some 10) = .ok od)
    (hn : getNode s nid = some node) :
    ∃ res, handleContext s input = .ok res ∧ res.children.id = nid ∧
      ∀ (k : Nat) (t' : NodeTree), t' ∈ res.children.subtreesAt k →
        k ≤ (od.getD 2).toNat ∧
        (∃ m, getNode s t'.id = some m ∧ t'.summary = m.summary ∧
          t'.resolved = m.resolved ∧ t'.state = m.state) ∧
        (getChildren s t'.id = [] → t'.children = none ∧ t'.child_count = none) ∧
        (getChildren s t'.id ≠ [] →
          (k < (od.getD 2).toNat → t'.child_count = none ∧
            ∃ cs, t'.children = some cs ∧
              List.Forall₂ (fun (c : Node) tc => NodeTree.id tc = c.id)
                (getChildren s t'.id) cs) ∧
          (k = (od.getD 2).toNat → t'.children = none ∧
            t'.child_count = some (getChildren s t'.id).length)) := by
  set d := (od.getD 2).toNat with hd
  obtain ⟨t, ht, hm⟩ := buildNodeTree_ok s d 0 d (Nat.sub_zero d) nid node hn
  have hres : handleContext s input = .ok ⟨node, getAncestors s nid, t,
      (getEdgesFrom s nid "depends_on").map (fun e =>
        let target := getNode s e.to_node
        ⟨target,
          match target with
          | some tn => tn.resolved
          | none => false⟩),
      (getEdgesTo s nid "depends_on").map (fun e =>
        (⟨getNode s e.from_node, node.resolved⟩ : DepEntry))⟩ := by
    simp only [handleContext, getNodeOrThrow, h1, h2, hn, ← hd, ht]
  refine ⟨_, hres, ?_, ?_⟩
  · exact matches_id s d nid t hm
  · intro k t' ht'
    obtain ⟨hk, hmt⟩ := matches_subtreesAt s k d nid t hm t' ht'
    refine ⟨hk, ?_, ?_, ?_⟩
    · cases hdk : d - k with
      | zero =>
        rw [hdk] at hmt
        obtain ⟨⟨m, hm', h1', h2', h3', h4'⟩, _, _⟩ := hmt
        exact ⟨m, hm', h2', h3', h4'⟩
      | succ b =>
        rw [hdk] at hmt
        obtain ⟨⟨m, hm', h1', h2', h3', h4'⟩, _, _⟩ := hmt
        exact ⟨m, hm', h2', h3', h4'⟩
    · intro hce
      cases hdk : d - k with
      | zero =>
        rw [hdk] at hmt
        exact hmt.2.1 hce
      | succ b =>
        rw [hdk] at hmt
        exact hmt.2.1 hce
    · intro hce
      constructor
      · intro hklt
        have hpos : 0 < d - k := by omega
        cases hdk : d - k with
        | zero => omega
        | succ b =>
          rw [hdk] at hmt
          obtain ⟨_, _, hne⟩ := hmt
          obtain ⟨hcc, cs, hcs, hf⟩ := hne hce
          refine ⟨hcc, cs, hcs, ?_⟩
          exact hf.imp (fun {c} {tc} hmc => matches_id s b c.id tc hmc)
      · intro hkeq
        have hdk : d - k = 0 := by omega
        rw [hdk] at hmt
        exact hmt.2.2 hce

/-- A concrete test fixture node with the given id, project, parent, summary
and resolved flag. -/
def mkNode (id project : String) (parent : Option String) (summary : String)
    (resolved : Bool) : Node :=
  ⟨id, project, parent, summary, resolved, none, [], false, none, none, "tester", 0, 0⟩

/-- A concrete three-node store (root r, child a, grandchild b, all in
project demo) with two depends_on edges, used by the witnesses. -/
def demoStore : Store :=
  ⟨[mkNode "r" "demo" none "root goal" false,
    mkNode "a" "demo" (some "r") "task a" true,
    mkNode "b" "demo" (some "a") "task b" false],
   [⟨"a", "b", "depends_on", 0⟩, ⟨"r", "a", "depends_on", 0⟩]⟩

/-- C2 witness: the context operation on node r of the demo store with depth
1 succeeds and its children tree satisfies the truncation contract. -/
theorem context_children_truncation_witness :
    (requireString (JValue.str "r") "node_id" = .ok "r") ∧
    (optionalNumber (JValue.num 1) "depth" (some 0) (some 10) = .ok (some 1)) ∧
    (getNode demoStore "r" = some (mkNode "r" "demo" none "root goal" false)) ∧
    (∃ res, handleContext demoStore ⟨.str "r", .num 1⟩ = .ok res ∧
      res.children.id = "r" ∧
      ∀ (k : Nat) (t' : NodeTree), t' ∈ res.children.subtreesAt k →
        k ≤ 1 ∧
        (∃ m, getNode demoStore t'.id = some m ∧ t'.summary = m.summary ∧
          t'.resolved = m.resolved ∧ t'.state = m.state) ∧
        (getChildren demoStore t'.id = [] → t'.children = none ∧ t'.child_count = none) ∧
        (getChildren demoStore t'.id ≠ [] →
          (k < 1 → t'.child_count = none ∧
            ∃ cs, t'.children = some cs ∧
              List.Forall₂ (fun (c : Node) tc => NodeTree.id tc = c.id)
                (getChildren demoStore t'.id) cs) ∧
          (k = 1 → t'.children = none ∧
            t'.child_count = some (getChildren demoStore t'.id).length))) :=
  ⟨rfl, rfl, rfl,
    context_children_truncation demoStore ⟨.str "r", .num 1⟩ "r" (some 1)
      (mkNode "r" "demo" none "root goal" false) rfl rfl rfl⟩

/-- C3: for every existing node, the context operation reports each outgoing
depends_on edge satisfied exactly when its target exists and is resolved, and
each incoming depends_on edge satisfied exactly when the node itself is
resolved. -/
theorem context_dependency_satisfaction (s : Store) (input : ContextInput)
    (nid : String) (od : Option Int) (node : Node)
    (h1 : requireString input.node_id "node_id" = .ok nid)
    (h2 : optionalNumber input.depth "depth" (some 0) (some 10) = .ok od)
    (hn : getNode s nid = some node) :
    ∃ res, handleContext s input = .ok res ∧ res.node = node ∧
      List.Forall₂ (fun (e : Edge) (en : DepEntry) =>
        en.node = getNode s e.to_node ∧
        (en.satisfied = true ↔ ∃ m, getNode s e.to_node = some m ∧ m.resolved = true))
        (getEdgesFrom s nid "depends_on") res.depends_on ∧
      List.Forall₂ (fun (_ : Edge) (en : DepEntry) =>
        en.satisfied = true ↔ node.resolved = true)
        (getEdgesTo s nid "depends_on") res.depended_by := by
  set d := (od.getD 2).toNat with hd
  obtain ⟨t, ht, _⟩ := buildNodeTree_ok s d 0 d (Nat.sub_zero d) nid node hn
  have hres : handleContext s input = .ok ⟨node, getAncestors s nid, t,
      (getEdgesFrom s nid "depends_on").map (fun e =>
        let target := getNode s e.to_node
        ⟨target,
          match target with
          | some tn => tn.resolved
          | none => false⟩),
      (getEdgesTo s nid "depends_on").map (fun e =>
        (⟨getNode s e.from_node, node.resolved⟩ : DepEntry))⟩ := by
    simp only [handleContext, getNodeOrThrow, h1, h2, hn, ← hd, ht]
  refine ⟨_, hres, rfl, ?_, ?_⟩
  · rw [List.forall₂_map_right_iff]
    apply List.forall₂_same.mpr
    intro e _
    refine ⟨rfl, ?_⟩
    cases hgt : getNode s e.to_node with
    | none => simp
    | some m => simp [hgt]
  · rw [List.forall₂_map_right_iff]
    apply List.forall₂_same.mpr
    intro e _
    simp

/-- C3 witness: on the demo store, the context operation on node a reports
its outgoing dependency on b and incoming dependency from r with the correct
satisfaction values. -/
theorem context_dependency_satisfaction_witness :
    (requireString (JValue.str "a") "node_id" = .ok "a") ∧
    (optionalNumber JValue.undef "depth" (some 0) (some 10) = .ok none) ∧
    (getNode demoStore "a" = some (mkNode "a" "demo" (some "r") "task a" true)) ∧
    (∃ res, handleContext demoStore ⟨.str "a", .undef⟩ = .ok res ∧
      res.node = mkNode "a" "demo" (some "r") "task a" true ∧
      List.Forall₂ (fun (e : Edge) (en : DepEntry) =>
        en.node = getNode demoStore e.to_node ∧
        (en.satisfied = true ↔
          ∃ m, getNode demoStore e.to_node = some m ∧ m.resolved = true))
        (getEdgesFrom demoStore "a" "depends_on") res.depends_on ∧
      List.Forall₂ (fun (_ : Edge) (en : DepEntry) =>
        en.satisfied = true ↔ (mkNode "a" "demo" (some "r") "task a" true).resolved = true)
        (getEdgesTo demoStore "a" "depends_on") res.depended_by) :=
  ⟨rfl, rfl, rfl,
    context_dependency_satisfaction demoStore ⟨.str "a", .undef⟩ "a" none
      (mkNode "a" "demo" (some "r") "task a" true) rfl rfl rfl⟩

/-- C5: looking up an absent entity fails with a typed NotFound engine error
carrying a stable code and a message naming the entity: the context operation
on an id with no stored node fails with the not_found engine error, and the
tree operation on a project with no root fails with the project_not_found
engine error. Both handlers are read-only functions of the store, so no write
is performed. -/
theorem lookup_absent_not_found :
    (∀ (s : Store) (input : ContextInput) (nid : String) (od : Option Int),
      requireString input.node_id "node_id" = .ok nid →
      optionalNumber input.depth "depth" (some 0) (some 10) = .ok od →
      getNode s nid = none →
      handleContext s input =
        .error (.engine "not_found" ("Node not found: " ++ nid))) ∧
    (∀ (s : Store) (input : TreeInput) (p : String) (od : Option Int),
      requireString input.project "project" = .ok p →
      optionalNumber input.depth "depth" (some 1) (some 20) = .ok od →
      getProjectRoot s p = none →
      Tree1.handleTree s input =
        .error (.engine "project_not_found" ("Project not found: " ++ p))) := by
  constructor
  · intro s input nid od h1 h2 hn
    simp only [handleContext, getNodeOrThrow, h1, h2, hn]
  · intro s input p od h1 h2 hr
    simp only [Tree1.handleTree, h1, h2, hr]

/-- C5 witness: a missing node id and a missing project on the demo store
produce the two typed NotFound errors. -/
theorem lookup_absent_not_found_witness :
    (requireString (JValue.str "zzz") "node_id" = .ok "zzz") ∧
    (optionalNumber JValue.undef "depth" (some 0) (some 10) = .ok none) ∧
    (getNode demoStore "zzz" = none) ∧
    (handleContext demoStore ⟨.str "zzz", .undef⟩ =
      .error (.engine "not_found" "Node not found: zzz")) ∧
    (requireString (JValue.str "ghost") "project" = .ok "ghost") ∧
    (optionalNumber JValue.undef "depth" (some 1) (some 20) = .ok none) ∧
    (getProjectRoot demoStore "ghost" = none) ∧
    (Tree1.handleTree demoStore ⟨.str "ghost", .undef⟩ =
      .error (.engine "project_not_found" "Project not found: ghost")) :=
  ⟨rfl, rfl, rfl,
    lookup_absent_not_found.1 demoStore ⟨.str "zzz", .undef⟩ "zzz" none rfl rfl rfl,
    rfl, rfl, rfl,
    lookup_absent_not_found.2 demoStore ⟨.str "ghost", .undef⟩ "ghost" none rfl rfl rfl⟩

/-- C4 counterexample: the empty string is accepted by the open handler's
validation and has no root node, yet open with project name "" creates no
node and returns the all-projects listing, because the handler treats the
falsy empty string like an absent project. -/
theorem open_empty_project_counterexample :
    getProjectRoot (Store.mk [] []) "" = none ∧
    optionalString (JValue.str "") "project" = .ok (some "") ∧
    handleOpen (Store.mk [] []) ⟨.str "", .undef⟩ "agent" 0 =
      .ok (.projects [], Store.mk [] []) :=
  ⟨rfl, rfl, rfl⟩

/-- C4 (amended): open without a project returns the list of all projects;
open with a non-empty project name that has no root creates exactly one root
node for it (summary the supplied goal, or the project name when no goal is
given) and returns it with the project summary; open with a non-empty project
name that already has a root creates no node and returns the existing root
with the project summary. -/
theorem handleOpen_spec :
    (∀ (s : Store) (input : OpenInput) (agent : String) (now : Nat) (g : Option String),
      optionalString input.project "project" = .ok none →
      optionalString input.goal "goal" = .ok g →
      handleOpen s input agent now = .ok (.projects (listProjects s), s)) ∧
    (∀ (s : Store) (input : OpenInput) (agent : String) (now : Nat)
        (p : String) (g : Option String),
      optionalString input.project "project" = .ok (some p) →
      optionalString input.goal "goal" = .ok g → p ≠ "" →
      getProjectRoot s p = none →
      ∃ (root : Node) (s1 : Store),
        handleOpen s input agent now =
          .ok (.opened p root (getProjectSummary s1 p now), s1) ∧
        s1.nodes = s.nodes ++ [root] ∧ s1.edges = s.edges ∧
        root.parent = none ∧ root.project = p ∧ root.summary = g.getD p ∧
        root.resolved = false) ∧
    (∀ (s : Store) (input : OpenInput) (agent : String) (now : Nat)
        (p : String) (g : Option String) (r : Node),
      optionalString input.project "project" = .ok (some p) →
      optionalString input.goal "goal" = .ok g → p ≠ "" →
      getProjectRoot s p = some r →
      handleOpen s input agent now = .ok (.opened p r (getProjectSummary s p now), s)) := by
  refine ⟨?_, ?_, ?_⟩
  · intro s input agent now g h1 h2
    simp only [handleOpen, h1, h2]
  · intro s input agent now p g h1 h2 hp hroot
    have hpb : (p == "") = false := beq_eq_false_iff_ne.mpr hp
    refine ⟨(createNode s p (g.getD p) "pending" agent now).1,
      (createNode s p (g.getD p) "pending" agent now).2, ?_, ?_, ?_, rfl, rfl, rfl, rfl⟩
    · simp only [handleOpen, h1, h2, hpb, hroot, Bool.false_eq_true, if_false]
    · simp [createNode]
    · rfl
  · intro s input agent now p g r h1 h2 hp hroot
    have hpb : (p == "") = false := beq_eq_false_iff_ne.mpr hp
    simp only [handleOpen, h1, h2, hpb, hroot, Bool.false_eq_true, if_false]

/-- C4 witness: opening the fresh project demo with a goal on the empty store
creates exactly one root with that goal as summary and returns it. -/
theorem handleOpen_spec_witness :
    (optionalString (JValue.str "demo") "project" = .ok (some "demo")) ∧
    (optionalString (JValue.str "Ship the feature") "goal" = .ok (some "Ship the feature")) ∧
    ("demo" ≠ "") ∧
    (getProjectRoot (Store.mk [] []) "demo" = none) ∧
    (∃ (root : Node) (s1 : Store),
      handleOpen (Store.mk [] []) ⟨.str "demo", .str "Ship the feature"⟩ "agent" 7 =
        .ok (.opened "demo" root (getProjectSummary s1 "demo" 7), s1) ∧
      s1.nodes = (Store.mk [] []).nodes ++ [root] ∧ s1.edges = (Store.mk [] []).edges ∧
      root.parent = none ∧ root.project = "demo" ∧
      root.summary = (some "Ship the feature").getD "demo" ∧
      root.resolved = false) :=
  ⟨rfl, rfl, by decide, rfl,
    handleOpen_spec.2.1 (Store.mk [] []) ⟨.str "demo", .str "Ship the feature"⟩
      "agent" 7 "demo" (some "Ship the feature") rfl rfl (by decide) rfl⟩

/-- C7: backup retention is an invariant of at most 10 retained backups:
backupDb preserves the at-most-10 bound; on a file-backed store it appends
one backup tagged and timestamped as requested and keeps exactly the most
recent min(n+1, 10) backups by creation order (a suffix of the appended
list); and creating 12 tagged backups in sequence from an empty backups
directory leaves exactly the last 10. -/
theorem backup_retention :
    (∀ (st : DbState) (tag : String) (now : Nat),
      st.backups.length ≤ 10 → (backupDb st tag now).2.backups.length ≤ 10) ∧
    (∀ (st : DbState) (p tag : String) (now : Nat),
      st.path = .file p →
      ∃ b : Backup, b.tag = tag ∧ b.created_at = now ∧ b.content = st.image ∧
        (backupDb st tag now).2.backups.length = min (st.backups.length + 1) 10 ∧
        (backupDb st tag now).2.backups <:+ st.backups ++ [b]) ∧
    (((List.range 12).foldl
        (fun st i => (backupDb st ("test-" ++ toString i) i).2)
        ⟨.file "graph.db", "img0", []⟩).backups.map (fun b => b.tag) =
      ["test-2", "test-3", "test-4", "test-5", "test-6", "test-7", "test-8",
        "test-9", "test-10", "test-11"]) := by
  refine ⟨?_, ?_, ?_⟩
  · intro st tag now h
    cases hp : st.path with
    | memory => simpa [backupDb, hp] using h
    | file p =>
      simp only [backupDb, hp, List.length_drop, List.length_append, List.length_cons,
        List.length_nil]
      omega
  · intro st p tag now hp
    refine ⟨⟨toString now ++ "-" ++ tag ++ ".db", tag, now, st.image⟩, rfl, rfl, rfl, ?_, ?_⟩
    · simp only [backupDb, hp, List.length_drop, List.length_append, List.length_cons,
        List.length_nil]
      omega
    · simp only [backupDb, hp]
      exact List.drop_suffix _ _
  · rfl

/-- C7 witness: one manual backup on a file-backed store with an empty
backups directory appends it and keeps exactly that one backup. -/
theorem backup_retention_witness :
    ((⟨.file "graph.db", "img", []⟩ : DbState).path = .file "graph.db") ∧
    (∃ b : Backup, b.tag = "manual" ∧ b.created_at = 5 ∧ b.content = "img" ∧
      (backupDb ⟨.file "graph.db", "img", []⟩ "manual" 5).2.backups.length =
        min ((⟨.file "graph.db", "img", []⟩ : DbState).backups.length + 1) 10 ∧
      (backupDb ⟨.file "graph.db", "img", []⟩ "manual" 5).2.backups <:+
        (⟨.file "graph.db", "img", []⟩ : DbState).backups ++ [b]) :=
  ⟨rfl, backup_retention.2.1 ⟨.file "graph.db", "img", []⟩ "graph.db" "manual" 5 rfl⟩

/-- C8: restore resolves an exact backup filename, or a 1-based recency index
into the newest-first backup listing (index 1 the most recent); on success
the live image is replaced by the backup's contents, and when the target
resolves to no backup it fails with BackupNotFound leaving the state
unchanged. -/
theorem restore_resolution :
    (∀ (st : DbState) (target : String) (b : Backup),
      (listBackups st).find? (fun x => x.filename == target) = some b →
      restoreDb st target = (.ok b.filename, { st with image := b.content })) ∧
    (∀ (st : DbState) (target : String) (i : Nat) (b : Backup),
      (listBackups st).find? (fun x => x.filename == target) = none →
      jsParseNat target = some i → 1 ≤ i → i ≤ (listBackups st).length →
      (listBackups st)[i - 1]? = some b →
      restoreDb st target = (.ok b.filename, { st with image := b.content })) ∧
    (∀ (st : DbState) (target : String),
      resolveBackup st target = none →
      restoreDb st target =
        (.error (.engine "backup_not_found" ("Backup not found: " ++ target)), st)) := by
  refine ⟨?_, ?_, ?_⟩
  · intro st target b hf
    simp only [restoreDb, resolveBackup, hf]
  · intro st target i b hf hp h1 h2 hb
    simp only [restoreDb, resolveBackup, hf, hp, h1, h2, and_self, if_pos, hb,
      true_and]
  · intro st target hr
    simp only [restoreDb, hr]

/-- C8 witness: on a file store with two backups, restoring by exact filename
replaces the image with that backup, restoring "1" replaces it with the most
recent backup, and restoring a nonexistent filename fails with
BackupNotFound and leaves the state unchanged. -/
theorem restore_resolution_witness :
    ((listBackups ⟨.file "g.db", "live",
        [⟨"10-snap.db", "snap", 10, "old"⟩, ⟨"20-snap2.db", "snap2", 20, "newer"⟩]⟩).find?
      (fun x => x.filename == "10-snap.db") = some ⟨"10-snap.db", "snap", 10, "old"⟩) ∧
    (restoreDb ⟨.file "g.db", "live",
        [⟨"10-snap.db", "snap", 10, "old"⟩, ⟨"20-snap2.db", "snap2", 20, "newer"⟩]⟩
        "10-snap.db" =
      (.ok "10-snap.db", ⟨.file "g.db", "old",
        [⟨"10-snap.db", "snap", 10, "old"⟩, ⟨"20-snap2.db", "snap2", 20, "newer"⟩]⟩)) ∧
    (restoreDb ⟨.file "g.db", "live",
        [⟨"10-snap.db", "snap", 10, "old"⟩, ⟨"20-snap2.db", "snap2", 20, "newer"⟩]⟩
        "1" =
      (.ok "20-snap2.db", ⟨.file "g.db", "newer",
        [⟨"10-snap.db", "snap", 10, "old"⟩, ⟨"20-snap2.db", "snap2", 20, "newer"⟩]⟩)) ∧
    (restoreDb ⟨.file "g.db", "live",
        [⟨"10-snap.db", "snap", 10, "old"⟩, ⟨"20-snap2.db", "snap2", 20, "newer"⟩]⟩
        "nonexistent.db" =
      (.error (.engine "backup_not_found" "Backup not found: nonexistent.db"),
        ⟨.file "g.db", "live",
          [⟨"10-snap.db", "snap", 10, "old"⟩, ⟨"20-snap2.db", "snap2", 20, "newer"⟩]⟩)) :=
  ⟨rfl,
    restore_resolution.1 _ "10-snap.db" ⟨"10-snap.db", "snap", 10, "old"⟩ rfl,
    restore_resolution.2.1 _ "1" 1 ⟨"20-snap2.db", "snap2", 20, "newer"⟩ rfl rfl
      (by decide) (by decide) rfl,
    restore_resolution.2.2 _ "nonexistent.db" rfl⟩

/-- C9: against a purely in-memory store, backupDb is a total no-op returning
no destination for every tag (it is a total function, so it never throws);
store initialization leaves no backups for an in-memory store; and restore
against an in-memory store with its (always empty) backups reports
BackupNotFound and changes nothing. -/
theorem memory_store_backup_noop :
    (∀ (st : DbState) (tag : String) (now : Nat),
      st.path = .memory → backupDb st tag now = (none, st)) ∧
    (∀ (st : DbState) (now : Nat),
      st.path = .memory → (initDb st now).backups = []) ∧
    (∀ (st : DbState) (target : String),
      st.path = .memory → st.backups = [] →
      restoreDb st target =
        (.error (.engine "backup_not_found" ("Backup not found: " ++ target)), st)) := by
  refine ⟨?_, ?_, ?_⟩
  · intro st tag now hp
    simp only [backupDb, hp]
  · intro st now hp
    simp only [initDb, hp]
  · intro st target _ hb
    have hres : resolveBackup st target = none := by
      unfold resolveBackup listBackups
      rw [hb]
      simp only [List.reverse_nil, List.find?_nil, List.length_nil]
      cases h : jsParseNat target with
      | none => rfl
      | some i =>
        have hni : ¬ (1 ≤ i ∧ i ≤ 0) := by omega
        simp [hni]
    simp only [restoreDb, hres]

/-- C9 witness: a concrete in-memory store state: backup returns no
destination and changes nothing, and restore by index 1 reports
BackupNotFound. -/
theorem memory_store_backup_noop_witness :
    ((⟨.memory, "mem", []⟩ : DbState).path = .memory) ∧
    (backupDb ⟨.memory, "mem", []⟩ "test" 3 = (none, ⟨.memory, "mem", []⟩)) ∧
    (restoreDb ⟨.memory, "mem", []⟩ "1" =
      (.error (.engine "backup_not_found" "Backup not found: 1"),
        ⟨.memory, "mem", []⟩)) :=
  ⟨rfl,
    memory_store_backup_noop.1 ⟨.memory, "mem", []⟩ "test" 3 rfl,
    memory_store_backup_noop.2.2 ⟨.memory, "mem", []⟩ "1" rfl rfl⟩

/-- The subtrees of a newer-handler tree node at a given relative depth. -/
def Tree2.TreeNode.subtreesAt : Tree2.TreeNode → Nat → List Tree2.TreeNode
  | t, 0 => [t]
  | t, k + 1 =>
    match t.children with
    | none => []
    | some cs => cs.flatMap (fun c => Tree2.TreeNode.subtreesAt c k)

/-- The newer buildTree on a childless node: no children, no child_count, no
progress, subtree totals one node. -/
theorem tree2_buildTree_leaf (s : Store) (n : Node) (cur max : Nat)
    (stats : Nat × Nat) (hc : getChildren s n.id = []) :
    Tree2.buildTree s n cur max stats =
      ⟨.mk n.id n.summary n.resolved n.properties none none none, 1,
        (if n.resolved then 1 else 0),
        (stats.1 + 1, if n.resolved then stats.2 + 1 else stats.2)⟩ := by
  unfold Tree2.buildTree
  rw [hc]
  simp

/-- The newer buildTree below the depth limit: children are materialized from
the children loop, progress sums the node with its children's totals. -/
theorem tree2_buildTree_step (s : Store) (n : Node) (cur max : Nat)
    (stats : Nat × Nat) (hc : getChildren s n.id ≠ []) (hlt : cur < max) :
    Tree2.buildTree s n cur max stats =
      (let r := Tree2.buildTreeList s (getChildren s n.id) (cur + 1) max
        (stats.1 + 1, if n.resolved then stats.2 + 1 else stats.2)
      ⟨.mk n.id n.summary n.resolved n.properties
          (some ⟨(if n.resolved then 1 else 0) + r.subresolved, 1 + r.subtotal⟩)
          (some r.trees) none,
        1 + r.subtotal, (if n.resolved then 1 else 0) + r.subresolved, r.stats⟩) := by
  unfold Tree2.buildTree
  simp [hc, hlt]

/-- The newer buildTree at the depth limit: the node is truncated to its
child_count and its progress is the aggregate subtree-progress query. -/
theorem tree2_buildTree_trunc (s : Store) (n : Node) (cur max : Nat)
    (stats : Nat × Nat) (hc : getChildren s n.id ≠ []) (hge : ¬ cur < max) :
    Tree2.buildTree s n cur max stats =
      ⟨.mk n.id n.summary n.resolved n.properties
          (some ⟨(getSubtreeProgress s n.id).resolved, (getSubtreeProgress s n.id).total⟩)
          none (some (getChildren s n.id).length),
        (getSubtreeProgress s n.id).total, (getSubtreeProgress s n.id).resolved,
        (stats.1 + 1, if n.resolved then stats.2 + 1 else stats.2)⟩ := by
  unfold Tree2.buildTree
  simp [hc, hge]

/-- The newer children loop on an empty list. -/
theorem tree2_buildTreeList_nil (s : Store) (cur max : Nat) (stats : Nat × Nat) :
    Tree2.buildTreeList s [] cur max stats = ⟨[], 0, 0, stats⟩ := by
  unfold Tree2.buildTreeList
  rfl

/-- The newer children loop on a cons: build the head, then the tail with the
head's threaded stats. -/
theorem tree2_buildTreeList_cons (s : Store) (c : Node) (rest : List Node)
    (cur max : Nat) (stats : Nat × Nat) :
    Tree2.buildTreeList s (c :: rest) cur max stats =
      (let r := Tree2.buildTree s c cur max stats
      let rs := Tree2.buildTreeList s rest cur max r.stats
      ⟨r.treeNode :: rs.trees, r.subtotal + rs.subtotal,
        r.subresolved + rs.subresolved, rs.stats⟩) := by
  conv_lhs => rw [Tree2.buildTreeList]

/-- Every tree in the output of the newer children loop is the root of a
buildTree call on one of the input nodes (with some threaded stats). -/
theorem tree2_trees_mem (s : Store) :
    ∀ (l : List Node) (cur max : Nat) (stats : Nat × Nat)
      (tc : Tree2.TreeNode), tc ∈ (Tree2.buildTreeList s l cur max stats).trees →
      ∃ (c : Node) (stats' : Nat × Nat), c ∈ l ∧
        tc = (Tree2.buildTree s c cur max stats').treeNode := by
  intro l
  induction l with
  | nil =>
    intro cur max stats tc htc
    rw [tree2_buildTreeList_nil] at htc
    cases htc
  | cons c rest ihl =>
    intro cur max stats tc htc
    rw [tree2_buildTreeList_cons] at htc
    rcases List.mem_cons.mp htc with hh | ht
    · exact ⟨c, stats, List.mem_cons_self c rest, hh⟩
    · obtain ⟨c', stats', hc', heq⟩ :=
        ihl cur max (Tree2.buildTree s c cur max stats).stats tc ht
      exact ⟨c', stats', List.mem_cons_of_mem c hc', heq⟩

/-- Every truncated node anywhere in a newer buildTree rendering carries the
aggregate subtree progress of its own node id. -/
theorem tree2_truncated_progress (s : Store) :
    ∀ (b cur max : Nat), max - cur = b → ∀ (n : Node) (stats : Nat × Nat)
      (k : Nat) (t' : Tree2.TreeNode),
      t' ∈ (Tree2.buildTree s n cur max stats).treeNode.subtreesAt k →
      ∀ c, t'.child_count = some c →
        t'.progress = some (getSubtreeProgress s t'.id) := by
  intro b
  induction b with
  | zero =>
    intro cur max hb n stats k t' ht' c hcc
    have hge : ¬ cur < max := by omega
    by_cases hc : getChildren s n.id = []
    · rw [tree2_buildTree_leaf s n cur max stats hc] at ht'
      cases k with
      | zero =>
        have heq : t' = .mk n.id n.summary n.resolved n.properties none none none := by
          simpa [Tree2.TreeNode.subtreesAt] using ht'
        rw [heq] at hcc
        cases hcc
      | succ k =>
        simp [Tree2.TreeNode.subtreesAt, Tree2.TreeNode.children] at ht'
    · rw [tree2_buildTree_trunc s n cur max stats hc hge] at ht'
      cases k with
      | zero =>
        have heq : t' = .mk n.id n.summary n.resolved n.properties
            (some ⟨(getSubtreeProgress s n.id).resolved, (getSubtreeProgress s n.id).total⟩)
            none (some (getChildren s n.id).length) := by
          simpa [Tree2.TreeNode.subtreesAt] using ht'
        rw [heq]
        rfl
      | succ k =>
        simp [Tree2.TreeNode.subtreesAt, Tree2.TreeNode.children] at ht'
  | succ b ih =>
    intro cur max hb n stats k t' ht' c hcc
    have hlt : cur < max := by omega
    by_cases hc : getChildren s n.id = []
    · rw [tree2_buildTree_leaf s n cur max stats hc] at ht'
      cases k with
      | zero =>
        have heq : t' = .mk n.id n.summary n.resolved n.properties none none none := by
          simpa [Tree2.TreeNode.subtreesAt] using ht'
        rw [heq] at hcc
        cases hcc
      | succ k =>
        simp [Tree2.TreeNode.subtreesAt, Tree2.TreeNode.children] at ht'
    · rw [tree2_buildTree_step s n cur max stats hc hlt] at ht'
      cases k with
      | zero =>
        have heq : t' = .mk n.id n.summary n.resolved n.properties
            (some ⟨(if n.resolved then 1 else 0) +
                (Tree2.buildTreeList s (getChildren s n.id) (cur + 1) max
                  (stats.1 + 1, if n.resolved then stats.2 + 1 else stats.2)).subresolved,
              1 + (Tree2.buildTreeList s (getChildren s n.id) (cur + 1) max
                  (stats.1 + 1, if n.resolved then stats.2 + 1 else stats.2)).subtotal⟩)
            (some (Tree2.buildTreeList s (getChildren s n.id) (cur + 1) max
                (stats.1 + 1, if n.resolved then stats.2 + 1 else stats.2)).trees)
            none := by
          simpa [Tree2.TreeNode.subtreesAt] using ht'
        rw [heq] at hcc
        cases hcc
      | succ k =>
        have hmem : ∃ tc ∈ (Tree2.buildTreeList s (getChildren s n.id) (cur + 1) max
            (stats.1 + 1, if n.resolved then stats.2 + 1 else stats.2)).trees,
            t' ∈ Tree2.TreeNode.subtreesAt tc k := by
          simpa [Tree2.TreeNode.subtreesAt, Tree2.TreeNode.children, List.mem_flatMap]
            using ht'
        obtain ⟨tc, htc, hsub⟩ := hmem
        obtain ⟨cnode, stats', _, heq⟩ := tree2_trees_mem s _ _ _ _ tc htc
        rw [heq] at hsub
        exact ih (cur + 1) max (by omega) cnode stats' k t' hsub c hcc

/-- C1: the newer tree handler's rendering reports, for every node whose
children are cut off at the depth limit (those carrying a child_count), a
progress annotation equal to the aggregate subtree-progress query on that
node, i.e. the exact resolved and total counts over its full descendant set,
not just the materialized nodes. -/
theorem tree_truncated_progress_exact (s : Store) (input : TreeInput)
    (p : String) (od : Option Int) (root : Node)
    (h1 : requireString input.project "project" = .ok p)
    (h2 : optionalNumber input.depth "depth" (some 1) (some 20) = .ok od)
    (hr : getProjectRoot s p = some root) :
    ∃ res, Tree2.handleTree s input = .ok res ∧
      ∀ (k : Nat) (t' : Tree2.TreeNode), t' ∈ res.tree.subtreesAt k →
        ∀ c, t'.child_count = some c →
          t'.progress = some (getSubtreeProgress s t'.id) := by
  have hres : Tree2.handleTree s input = .ok
      ⟨p, (Tree2.buildTree s root 0 (od.getD 10).toNat (0, 0)).treeNode,
        ⟨(Tree2.buildTree s root 0 (od.getD 10).toNat (0, 0)).stats.1,
          (Tree2.buildTree s root 0 (od.getD 10).toNat (0, 0)).stats.2,
          (Tree2.buildTree s root 0 (od.getD 10).toNat (0, 0)).stats.1 -
            (Tree2.buildTree s root 0 (od.getD 10).toNat (0, 0)).stats.2⟩⟩ := by
    simp only [Tree2.handleTree, h1, h2, hr]
  refine ⟨_, hres, ?_⟩
  intro k t' ht' c hcc
  exact tree2_truncated_progress s ((od.getD 10).toNat) 0 ((od.getD 10).toNat)
    (Nat.sub_zero _) root (0, 0) k t' ht' c hcc

/-- C1 witness: rendering project demo at depth 1 succeeds, and every
truncated node of the result carries the exact aggregate subtree progress. -/
theorem tree_truncated_progress_exact_witness :
    (requireString (JValue.str "demo") "project" = .ok "demo") ∧
    (optionalNumber (JValue.num 1) "depth" (some 1) (some 20) = .ok (some 1)) ∧
    (getProjectRoot demoStore "demo" = some (mkNode "r" "demo" none "root goal" false)) ∧
    (∃ res, Tree2.handleTree demoStore ⟨.str "demo", .num 1⟩ = .ok res ∧
      ∀ (k : Nat) (t' : Tree2.TreeNode), t' ∈ res.tree.subtreesAt k →
        ∀ c, t'.child_count = some c →
          t'.progress = some (getSubtreeProgress demoStore t'.id)) :=
  ⟨rfl, rfl, rfl,
    tree_truncated_progress_exact demoStore ⟨.str "demo", .num 1⟩ "demo" (some 1)
      (mkNode "r" "demo" none "root goal" false) rfl rfl rfl⟩

/-- The older buildTree on a childless node. -/
theorem tree1_buildTree_leaf (s : Store) (n : Node) (cur max : Nat)
    (stats : Nat × Nat) (hc : getChildren s n.id = []) :
    Tree1.buildTree s n cur max stats =
      ⟨.mk n.id n.summary n.resolved n.properties none none,
        (stats.1 + 1, if n.resolved then stats.2 + 1 else stats.2)⟩ := by
  unfold Tree1.buildTree
  rw [hc]
  simp

/-- The older buildTree below the depth limit. -/
theorem tree1_buildTree_step (s : Store) (n : Node) (cur max : Nat)
    (stats : Nat × Nat) (hc : getChildren s n.id ≠ []) (hlt : cur < max) :
    Tree1.buildTree s n cur max stats =
      (let r := Tree1.buildTreeList s (getChildren s n.id) (cur + 1) max
        (stats.1 + 1, if n.resolved then stats.2 + 1 else stats.2)
      ⟨.mk n.id n.summary n.resolved n.properties (some r.trees) none, r.stats⟩) := by
  unfold Tree1.buildTree
  simp [hc, hlt]

/-- The older buildTree at the depth limit. -/
theorem tree1_buildTree_trunc (s : Store) (n : Node) (cur max : Nat)
    (stats : Nat × Nat) (hc : getChildren s n.id ≠ []) (hge : ¬ cur < max) :
    Tree1.buildTree s n cur max stats =
      ⟨.mk n.id n.summary n.resolved n.properties none
          (some (getChildren s n.id).length),
        (stats.1 + 1, if n.resolved then stats.2 + 1 else stats.2)⟩ := by
  unfold Tree1.buildTree
  simp [hc, hge]

/-- The older children loop on an empty list. -/
theorem tree1_buildTreeList_nil (s : Store) (cur max : Nat) (stats : Nat × Nat) :
    Tree1.buildTreeList s [] cur max stats = ⟨[], stats⟩ := by
  unfold Tree1.buildTreeList
  rfl

/-- The older children loop on a cons. -/
theorem tree1_buildTreeList_cons (s : Store) (c : Node) (rest : List Node)
    (cur max : Nat) (stats : Nat × Nat) :
    Tree1.buildTreeList s (c :: rest) cur max stats =
      (let r := Tree1.buildTree s c cur max stats
      let rs := Tree1.buildTreeList s rest cur max r.stats
      ⟨r.treeNode :: rs.trees, rs.stats⟩) := by
  conv_lhs => rw [Tree1.buildTreeList]

mutual

/-- Drop the progress annotations of a newer-handler tree node, yielding an
older-handler tree node with all other fields unchanged. -/
def eraseProgress : Tree2.TreeNode → Tree1.TreeNode
  | .mk i su r pr _ none cc => .mk i su r pr none cc
  | .mk i su r pr _ (some cs) cc => .mk i su r pr (some (eraseProgressList cs)) cc

/-- Drop the progress annotations of each tree in a list. -/
def eraseProgressList : List Tree2.TreeNode → List Tree1.TreeNode
  | [] => []
  | c :: rest => eraseProgress c :: eraseProgressList rest

end

/-- The two tree builders agree on every node: erasing the progress
annotations of the newer builder's tree yields the older builder's tree, and
both thread identical stats. -/
theorem tree_equiv_aux (s : Store) :
    ∀ (b cur max : Nat), max - cur = b → ∀ (n : Node) (stats : Nat × Nat),
      eraseProgress (Tree2.buildTree s n cur max stats).treeNode =
        (Tree1.buildTree s n cur max stats).treeNode ∧
      (Tree2.buildTree s n cur max stats).stats =
        (Tree1.buildTree s n cur max stats).stats := by
  intro b
  induction b with
  | zero =>
    intro cur max hb n stats
    have hge : ¬ cur < max := by omega
    by_cases hc : getChildren s n.id = []
    · rw [tree1_buildTree_leaf s n cur max stats hc,
        tree2_buildTree_leaf s n cur max stats hc]
      exact ⟨rfl, rfl⟩
    · rw [tree1_buildTree_trunc s n cur max stats hc hge,
        tree2_buildTree_trunc s n cur max stats hc hge]
      exact ⟨rfl, rfl⟩
  | succ b ih =>
    intro cur max hb n stats
    have hlt : cur < max := by omega
    by_cases hc : getChildren s n.id = []
    · rw [tree1_buildTree_leaf s n cur max stats hc,
        tree2_buildTree_leaf s n cur max stats hc]
      exact ⟨rfl, rfl⟩
    · have hlist : ∀ (l : List Node) (st : Nat × Nat),
          eraseProgressList (Tree2.buildTreeList s l (cur + 1) max st).trees =
            (Tree1.buildTreeList s l (cur + 1) max st).trees ∧
          (Tree2.buildTreeList s l (cur + 1) max st).stats =
            (Tree1.buildTreeList s l (cur + 1) max st).stats := by
        intro l
        induction l with
        | nil =>
          intro st
          rw [tree1_buildTreeList_nil, tree2_buildTreeList_nil]
          exact ⟨rfl, rfl⟩
        | cons ch rest ihl =>
          intro st
          obtain ⟨hech, hsch⟩ := ih (cur + 1) max (by omega) ch st
          obtain ⟨hetail, hstail⟩ := ihl (Tree2.buildTree s ch (cur + 1) max st).stats
          rw [tree1_buildTreeList_cons, tree2_buildTreeList_cons]
          refine ⟨?_, ?_⟩
          · show eraseProgressList ((Tree2.buildTree s ch (cur + 1) max st).treeNode ::
              (Tree2.buildTreeList s rest (cur + 1) max
                (Tree2.buildTree s ch (cur + 1) max st).stats).trees) =
              (Tree1.buildTree s ch (cur + 1) max st).treeNode ::
              (Tree1.buildTreeList s rest (cur + 1) max
                (Tree1.buildTree s ch (cur + 1) max st).stats).trees
            rw [eraseProgressList, hech, hetail, hsch]
          · show (Tree2.buildTreeList s rest (cur + 1) max
                (Tree2.buildTree s ch (cur + 1) max st).stats).stats =
              (Tree1.buildTreeList s rest (cur + 1) max
                (Tree1.buildTree s ch (cur + 1) max st).stats).stats
            rw [hstail, hsch]
      obtain ⟨hl1, hl2⟩ := hlist (getChildren s n.id)
        (stats.1 + 1, if n.resolved then stats.2 + 1 else stats.2)
      rw [tree1_buildTree_step s n cur max stats hc hlt,
        tree2_buildTree_step s n cur max stats hc hlt]
      refine ⟨?_, ?_⟩
      · show eraseProgress (.mk n.id n.summary n.resolved n.properties
            (some ⟨(if n.resolved then 1 else 0) +
                (Tree2.buildTreeList s (getChildren s n.id) (cur + 1) max
                  (stats.1 + 1, if n.resolved then stats.2 + 1 else stats.2)).subresolved,
              1 + (Tree2.buildTreeList s (getChildren s n.id) (cur + 1) max
                  (stats.1 + 1, if n.resolved then stats.2 + 1 else stats.2)).subtotal⟩)
            (some (Tree2.buildTreeList s (getChildren s n.id) (cur + 1) max
                (stats.1 + 1, if n.resolved then stats.2 + 1 else stats.2)).trees)
            none) =
          .mk n.id n.summary n.resolved n.properties
            (some (Tree1.buildTreeList s (getChildren s n.id) (cur + 1) max
                (stats.1 + 1, if n.resolved then stats.2 + 1 else stats.2)).trees)
            none
        rw [eraseProgress, hl1]
      · exact hl2

/-- C10: on the success path the two tree handlers are equivalent up to the
added progress annotations: for the same input they return the same project,
identical stats, and trees identical in id, summary, resolved, properties,
children structure and child_count, the newer tree differing only by its
progress fields. -/
theorem tree_handlers_equivalent (s : Store) (input : TreeInput)
    (p : String) (od : Option Int) (root : Node)
    (h1 : requireString input.project "project" = .ok p)
    (h2 : optionalNumber input.depth "depth" (some 1) (some 20) = .ok od)
    (hr : getProjectRoot s p = some root) :
    ∃ (r1 : Tree1.TreeResult) (r2 : Tree2.TreeResult),
      Tree1.handleTree s input = .ok r1 ∧ Tree2.handleTree s input = .ok r2 ∧
      r2.project = r1.project ∧ r2.stats = r1.stats ∧
      eraseProgress r2.tree = r1.tree := by
  have hres1 : Tree1.handleTree s input = .ok
      ⟨p, (Tree1.buildTree s root 0 (od.getD 10).toNat (0, 0)).treeNode,
        ⟨(Tree1.buildTree s root 0 (od.getD 10).toNat (0, 0)).stats.1,
          (Tree1.buildTree s root 0 (od.getD 10).toNat (0, 0)).stats.2,
          (Tree1.buildTree s root 0 (od.getD 10).toNat (0, 0)).stats.1 -
            (Tree1.buildTree s root 0 (od.getD 10).toNat (0, 0)).stats.2⟩⟩ := by
    simp only [Tree1.handleTree, h1, h2, hr]
  have hres2 : Tree2.handleTree s input = .ok
      ⟨p, (Tree2.buildTree s root 0 (od.getD 10).toNat (0, 0)).treeNode,
        ⟨(Tree2.buildTree s root 0 (od.getD 10).toNat (0, 0)).stats.1,
          (Tree2.buildTree s root 0 (od.getD 10).toNat (0, 0)).stats.2,
          (Tree2.buildTree s root 0 (od.getD 10).toNat (0, 0)).stats.1 -
            (Tree2.buildTree s root 0 (od.getD 10).toNat (0, 0)).stats.2⟩⟩ := by
    simp only [Tree2.handleTree, h1, h2, hr]
  obtain ⟨he, hs⟩ := tree_equiv_aux s ((od.getD 10).toNat) 0 ((od.getD 10).toNat)
    (Nat.sub_zero _) root (0, 0)
  refine ⟨_, _, hres1, hres2, rfl, ?_, he⟩
  rw [hs]

/-- C10 witness: on the demo store at depth 1 both tree handlers succeed with
the same project and stats, and the newer tree erases to the older one. -/
theorem tree_handlers_equivalent_witness :
    (requireString (JValue.str "demo") "project" = .ok "demo") ∧
    (optionalNumber (JValue.num 1) "depth" (some 1) (some 20) = .ok (some 1)) ∧
    (getProjectRoot demoStore "demo" = some (mkNode "r" "demo" none "root goal" false)) ∧
    (∃ (r1 : Tree1.TreeResult) (r2 : Tree2.TreeResult),
      Tree1.handleTree demoStore ⟨.str "demo", .num 1⟩ = .ok r1 ∧
      Tree2.handleTree demoStore ⟨.str "demo", .num 1⟩ = .ok r2 ∧
      r2.project = r1.project ∧ r2.stats = r1.stats ∧
      eraseProgress r2.tree = r1.tree) :=
  ⟨rfl, rfl, rfl,
    tree_handlers_equivalent demoStore ⟨.str "demo", .num 1⟩ "demo" (some 1)
      (mkNode "r" "demo" none "root goal" false) rfl rfl rfl⟩
